import Mathlib

/-!
Verification of the `gitAsDatabase` record store (`src/database.py`).

The store keeps one JSON object ("document") per file inside a git
repository; every successful mutation writes the file and commits, so the
repository history is an append-only list of snapshots.  We embed the
program shallowly:

* `Json` models Python values produced by `json.loads` (JSON `null` is
  Python `None`).
* `Doc` models a Python dict parsed from a document file: an
  insertion-ordered association list from record ids to values.
* `Tree` models the file tree of one git commit; a file's content either
  parses as a document or is invalid JSON.
* `GitDB` models the repository as its commit history (oldest first); the
  working copy always coincides with the latest commit because
  `_save_file` commits after every write.  A snapshot identifier is the
  index of a commit in the history; `none` stands for `HEAD`.

`_load_file` (here `load_file`) returns `{}` when the file is missing from
the tree, when the commit reference does not resolve, and — via its
catch-all `except Exception` branch — when the content is not valid JSON.
`read_record` returns `data.get(record_id)`, which is Python `None`
(`Json.null`, here `RecordNotFound`) both when the id is absent and when
the stored value is JSON `null`.
-/

namespace GitAsDatabase

/-- A JSON-serializable Python value. -/
inductive Json where
  | null
  | bool (b : Bool)
  | num (n : Int)
  | str (s : String)
  | arr (elems : List Json)
  | obj (fields : List (String × Json))

/-- A document: a Python dict from record ids to values, in insertion
order. -/
abbrev Doc := List (String × Json)

/-- Python `data.get(k)`: the value at the first occurrence of key `k`. -/
def Doc.get : Doc → String → Option Json
  | [], _ => none
  | (a, b) :: rest, k => if a = k then some b else Doc.get rest k

/-- Python `k in data`. -/
def Doc.hasKey (d : Doc) (k : String) : Bool :=
  (Doc.get d k).isSome

/-- Python `data[k] = v`: replace in place if the key is present,
otherwise append (dicts preserve insertion order). -/
def Doc.set : Doc → String → Json → Doc
  | [], k, v => [(k, v)]
  | (a, b) :: rest, k, v =>
      if a = k then (a, v) :: rest else (a, b) :: Doc.set rest k v

/-- Python `del data[k]`: remove the entry with key `k`. -/
def Doc.del : Doc → String → Doc
  | [], _ => []
  | (a, b) :: rest, k => if a = k then rest else (a, b) :: Doc.del rest k

/-- Python `list(data.keys())`: the keys in order. -/
def Doc.keys (d : Doc) : List String :=
  d.map Prod.fst

/-- A dict parsed from JSON has pairwise distinct keys. -/
def Doc.NodupKeys (d : Doc) : Prop :=
  (Doc.keys d).Nodup

instance (d : Doc) : Decidable (Doc.NodupKeys d) :=
  List.nodupDecidable (Doc.keys d)

/-- Content of one file inside a commit: either it parses as a JSON
document or `json.loads` raises on it. -/
inductive FileContent where
  | json (d : Doc)
  | invalid

/-- The file tree of one commit. -/
abbrev Tree := List (String × FileContent)

/-- Look a file up in a commit tree. -/
def Tree.get : Tree → String → Option FileContent
  | [], _ => none
  | (a, b) :: rest, f => if a = f then some b else Tree.get rest f

/-- Write a file into a tree (replace in place or append). -/
def Tree.set : Tree → String → FileContent → Tree
  | [], f, c => [(f, c)]
  | (a, b) :: rest, f, c =>
      if a = f then (a, c) :: rest else (a, b) :: Tree.set rest f c

/-- The repository: its commit history, oldest commit first. -/
structure GitDB where
  history : List Tree

/-- The tree of the commit a snapshot index denotes, if any. -/
def GitDB.treeAt (db : GitDB) (n : Nat) : Option Tree :=
  db.history[n]?

/-- The tree of `HEAD`: the latest commit, if any commit exists. -/
def GitDB.headTree (db : GitDB) : Option Tree :=
  db.history.getLast?

/-- Resolve a commit argument: `none` is the default `HEAD`. -/
def GitDB.resolve (db : GitDB) (commit : Option Nat) : Option Tree :=
  match commit with
  | none => db.headTree
  | some n => db.treeAt n

/-- `read_record` returns `data.get(record_id)`, so an absent id yields
Python `None`, i.e. JSON `null`.  This is the not-found signal. -/
def RecordNotFound : Json := Json.null

/-- Read a file out of one tree, as `_load_file` does once the commit is
resolved: a missing file raises `KeyError` (caught, `{}`), invalid
content makes `json.loads` raise (caught by `except Exception`, `{}`). -/
def loadTree (t : Tree) (filename : String) : Doc :=
  match Tree.get t filename with
  | none => []
  | some (FileContent.json d) => d
  | some FileContent.invalid => []

/-- `GitDB._load_file`: resolve the commit (an unresolvable reference
raises and is caught, giving `{}`), then read the file from its tree. -/
def load_file (db : GitDB) (filename : String) (commit : Option Nat) : Doc :=
  match db.resolve commit with
  | none => []
  | some t => loadTree t filename

/-- `GitDB._save_file`: write the file, stage it and commit.  The new
commit's tree is the previous `HEAD` tree (empty if no commit exists)
with this file replaced, appended to the history. -/
def save_file (db : GitDB) (filename : String) (data : Doc) : GitDB :=
  { history :=
      db.history ++ [Tree.set ((GitDB.headTree db).getD []) filename (FileContent.json data)] }

/-- `GitDB.create_record`: fail (returning `False`, no commit) if the id
is already present at `HEAD`, otherwise insert and commit. -/
def create_record (db : GitDB) (filename record_id : String) (record_data : Json) :
    Bool × GitDB :=
  let data := load_file db filename none
  if Doc.hasKey data record_id then (false, db)
  else (true, save_file db filename (Doc.set data record_id record_data))

/-- `GitDB.read_record`: return `data.get(record_id)`; Python `None`
(`RecordNotFound`) when the lookup misses. -/
def read_record (db : GitDB) (filename record_id : String) (commit : Option Nat) : Json :=
  match Doc.get (load_file db filename commit) record_id with
  | none => RecordNotFound
  | some v => v

/-- `GitDB.update_record`: fail (returning `False`, no commit) if the id
is absent at `HEAD`, otherwise replace the value and commit. -/
def update_record (db : GitDB) (filename record_id : String) (record_data : Json) :
    Bool × GitDB :=
  let data := load_file db filename none
  if Doc.hasKey data record_id then
    (true, save_file db filename (Doc.set data record_id record_data))
  else (false, db)

/-- `GitDB.delete_record`: fail (returning `False`, no commit) if the id
is absent at `HEAD`, otherwise remove the entry and commit. -/
def delete_record (db : GitDB) (filename record_id : String) : Bool × GitDB :=
  let data := load_file db filename none
  if Doc.hasKey data record_id then
    (true, save_file db filename (Doc.del data record_id))
  else (false, db)

/-- `GitDB.list_records`: the keys of the document at the commit. -/
def list_records (db : GitDB) (filename : String) (commit : Option Nat) : List String :=
  Doc.keys (load_file db filename commit)

/-- One call on the store. -/
inductive Op where
  | create (filename record_id : String) (record_data : Json)
  | update (filename record_id : String) (record_data : Json)
  | delete (filename record_id : String)
  | read (filename record_id : String) (commit : Option Nat)
  | list (filename : String) (commit : Option Nat)

/-- The visible outcome of one call. -/
inductive OpResult where
  | ok
  | fail
  | value (v : Json)
  | ids (l : List String)

/-- Run one call against the store, returning its outcome and the
resulting repository state (reads return the state untouched, exactly as
the corresponding methods never write). -/
def step (db : GitDB) : Op → OpResult × GitDB
  | Op.create f k v =>
      let r := create_record db f k v
      (if r.1 then OpResult.ok else OpResult.fail, r.2)
  | Op.update f k v =>
      let r := update_record db f k v
      (if r.1 then OpResult.ok else OpResult.fail, r.2)
  | Op.delete f k =>
      let r := delete_record db f k
      (if r.1 then OpResult.ok else OpResult.fail, r.2)
  | Op.read f k c => (OpResult.value (read_record db f k c), db)
  | Op.list f c => (OpResult.ids (list_records db f c), db)

/-- The state after one call. -/
def applyOp (db : GitDB) (o : Op) : GitDB :=
  (step db o).2

/-- The state after a sequence of calls. -/
def applyOps (db : GitDB) (ops : List Op) : GitDB :=
  ops.foldl applyOp db

/-- Whether a call is a mutating operation (create/update/delete). -/
def Op.mutates : Op → Bool
  | Op.create _ _ _ => true
  | Op.update _ _ _ => true
  | Op.delete _ _ => true
  | Op.read _ _ _ => false
  | Op.list _ _ => false

/-- The (file, id) a mutating call targets. -/
def Op.target : Op → Option (String × String)
  | Op.create f k _ => some (f, k)
  | Op.update f k _ => some (f, k)
  | Op.delete f k => some (f, k)
  | Op.read _ _ _ => none
  | Op.list _ _ => none

/-! ### Concrete repositories used as test states -/

/-- The freshly initialized repository: no commit yet. -/
def emptyDB : GitDB := ⟨[]⟩

/-- A repository whose single commit holds one document with one string
record. -/
def oneRecordDB : GitDB :=
  ⟨[[("users.json", FileContent.json [("user1", Json.str "Alice")])]]⟩

/-- A repository whose single commit holds one record stored as JSON
null (Python None). -/
def nullRecordDB : GitDB :=
  ⟨[[("users.json", FileContent.json [("user1", Json.null)])]]⟩

/-- A repository whose single commit holds a file that is not valid
JSON. -/
def invalidContentDB : GitDB :=
  ⟨[[("users.json", FileContent.invalid)]]⟩

/-! ### Association-list lemmas (Python dict semantics) -/

theorem Doc.get_set_self (d : Doc) (k : String) (v : Json) :
    Doc.get (Doc.set d k v) k = some v := by
  induction d with
  | nil => simp [Doc.set, Doc.get]
  | cons p rest ih =>
      obtain ⟨a, b⟩ := p
      by_cases h : a = k
      · simp [Doc.set, Doc.get, h]
      · simp [Doc.set, Doc.get, h, ih]

theorem Doc.keys_cons (a : String) (b : Json) (d : Doc) :
    Doc.keys ((a, b) :: d) = a :: Doc.keys d := rfl

theorem Doc.get_set_ne (d : Doc) (k k2 : String) (v : Json) (h : k2 ≠ k) :
    Doc.get (Doc.set d k v) k2 = Doc.get d k2 := by
  induction d with
  | nil => simp [Doc.set, Doc.get, if_neg (Ne.symm h)]
  | cons p rest ih =>
      obtain ⟨a, b⟩ := p
      by_cases ha : a = k
      · subst ha
        simp [Doc.set, Doc.get, if_neg (Ne.symm h)]
      · simp only [Doc.set, if_neg ha]
        simp [Doc.get, ih]

theorem Doc.get_del_ne (d : Doc) (k k2 : String) (h : k2 ≠ k) :
    Doc.get (Doc.del d k) k2 = Doc.get d k2 := by
  induction d with
  | nil => simp [Doc.del]
  | cons p rest ih =>
      obtain ⟨a, b⟩ := p
      by_cases ha : a = k
      · subst ha
        simp [Doc.del, Doc.get, if_neg (Ne.symm h)]
      · simp only [Doc.del, if_neg ha]
        simp [Doc.get, ih]

theorem Doc.get_isSome_iff (d : Doc) (k : String) :
    (Doc.get d k).isSome = true ↔ k ∈ Doc.keys d := by
  induction d with
  | nil => simp [Doc.get, Doc.keys]
  | cons p rest ih =>
      obtain ⟨a, b⟩ := p
      rw [Doc.keys_cons, List.mem_cons]
      by_cases ha : a = k
      · subst ha
        simp [Doc.get]
      · simp only [Doc.get, if_neg ha]
        constructor
        · intro hs
          exact Or.inr (ih.mp hs)
        · intro hm
          cases hm with
          | inl hm => exact absurd hm.symm ha
          | inr hm => exact ih.mpr hm

theorem Doc.get_eq_none_of_not_mem (d : Doc) (k : String) (h : k ∉ Doc.keys d) :
    Doc.get d k = none := by
  have h2 : ¬ (Doc.get d k).isSome = true := fun hs => h ((Doc.get_isSome_iff d k).mp hs)
  cases hg : Doc.get d k with
  | none => rfl
  | some v => exact absurd (by simp [hg]) h2

theorem Doc.get_del_self (d : Doc) (k : String) (h : Doc.NodupKeys d) :
    Doc.get (Doc.del d k) k = none := by
  induction d with
  | nil => simp [Doc.del, Doc.get]
  | cons p rest ih =>
      obtain ⟨a, b⟩ := p
      have h2 : (a :: Doc.keys rest).Nodup := h
      have hn : Doc.NodupKeys rest := (List.nodup_cons.mp h2).2
      by_cases ha : a = k
      · subst ha
        simp only [Doc.del, if_pos rfl]
        exact Doc.get_eq_none_of_not_mem rest a (List.nodup_cons.mp h2).1
      · simp [Doc.del, Doc.get, ha, ih hn]

theorem Tree.get_set_same (t : Tree) (f : String) (c : FileContent) :
    Tree.get (Tree.set t f c) f = some c := by
  induction t with
  | nil => simp [Tree.set, Tree.get]
  | cons p rest ih =>
      obtain ⟨a, b⟩ := p
      by_cases h : a = f
      · simp [Tree.set, Tree.get, h]
      · simp [Tree.set, Tree.get, h, ih]

theorem Tree.get_set_other (t : Tree) (f f2 : String) (c : FileContent) (h : f2 ≠ f) :
    Tree.get (Tree.set t f c) f2 = Tree.get t f2 := by
  induction t with
  | nil => simp [Tree.set, Tree.get, if_neg (Ne.symm h)]
  | cons p rest ih =>
      obtain ⟨a, b⟩ := p
      by_cases ha : a = f
      · subst ha
        simp [Tree.set, Tree.get, if_neg (Ne.symm h)]
      · simp only [Tree.set, if_neg ha]
        simp [Tree.get, ih]

/-! ### Save/load lemmas -/

theorem load_file_head (db : GitDB) (f : String) :
    load_file db f none = loadTree ((GitDB.headTree db).getD []) f := by
  cases h : GitDB.headTree db with
  | none => simp [load_file, GitDB.resolve, h, loadTree, Tree.get]
  | some t => simp [load_file, GitDB.resolve, h]

theorem headTree_save (db : GitDB) (f : String) (d : Doc) :
    GitDB.headTree (save_file db f d) =
      some (Tree.set ((GitDB.headTree db).getD []) f (FileContent.json d)) := by
  simp [save_file, GitDB.headTree]

theorem load_file_save_self (db : GitDB) (f : String) (d : Doc) :
    load_file (save_file db f d) f none = d := by
  rw [load_file_head, headTree_save]
  simp [loadTree, Tree.get_set_same]

theorem load_file_save_ne (db : GitDB) (f f2 : String) (d : Doc) (h : f2 ≠ f) :
    load_file (save_file db f d) f2 none = load_file db f2 none := by
  rw [load_file_head, headTree_save, load_file_head]
  simp [loadTree, Tree.get_set_other _ _ _ _ h]

theorem history_save (db : GitDB) (f : String) (d : Doc) :
    (save_file db f d).history.length = db.history.length + 1 := by
  simp [save_file]

/-! ### C1 -/

/-- C1: for a record id absent from the file's document at the latest
snapshot, `create_record` returns success, and a subsequent
`read_record` at the (new) latest snapshot returns exactly the value
just stored. -/
theorem create_then_read (db : GitDB) (f k : String) (v : Json)
    (h : Doc.hasKey (load_file db f none) k = false) :
    (create_record db f k v).1 = true ∧
    read_record (create_record db f k v).2 f k none = v := by
  have hc : create_record db f k v =
      (true, save_file db f (Doc.set (load_file db f none) k v)) := by
    simp [create_record, h]
  refine ⟨by rw [hc], ?_⟩
  rw [hc]
  simp [read_record, load_file_save_self, Doc.get_set_self]

/-- C1 witness: creating "user1" in a fresh repository succeeds and
reads back the stored value. -/
theorem create_then_read_witness :
    Doc.hasKey (load_file emptyDB "users.json" none) "user1" = false ∧
    (create_record emptyDB "users.json" "user1" (Json.str "Alice")).1 = true ∧
    read_record (create_record emptyDB "users.json" "user1" (Json.str "Alice")).2
      "users.json" "user1" none = Json.str "Alice" :=
  ⟨rfl, create_then_read emptyDB "users.json" "user1" (Json.str "Alice") rfl⟩

/-! ### C4 -/

/-- C4: creating an id already present at the latest snapshot returns
the duplicate failure signal (False), leaves the repository — hence the
snapshot history — unchanged, and a subsequent read still returns the
previously stored value. -/
theorem create_duplicate (db : GitDB) (f k : String) (v0 v : Json)
    (h : Doc.get (load_file db f none) k = some v0) :
    (create_record db f k v).1 = false ∧
    (create_record db f k v).2 = db ∧
    read_record (create_record db f k v).2 f k none = v0 := by
  have hk : Doc.hasKey (load_file db f none) k = true := by
    simp [Doc.hasKey, h]
  have h2 : (create_record db f k v).2 = db := by
    simp [create_record, hk]
  refine ⟨by simp [create_record, hk], h2, ?_⟩
  rw [h2]
  simp [read_record, h]

/-- C4 witness: re-creating "user1" fails, changes nothing, and the old
value is still read back. -/
theorem create_duplicate_witness :
    (create_record oneRecordDB "users.json" "user1" (Json.str "Bob")).1 = false ∧
    (create_record oneRecordDB "users.json" "user1" (Json.str "Bob")).2 = oneRecordDB ∧
    read_record (create_record oneRecordDB "users.json" "user1" (Json.str "Bob")).2
      "users.json" "user1" none = Json.str "Alice" :=
  create_duplicate oneRecordDB "users.json" "user1" (Json.str "Alice") (Json.str "Bob") rfl

/-! ### C5 -/

/-- C5: update and delete of an id absent at the latest snapshot both
return the not-found failure signal (False) and return the repository
unchanged, so no snapshot is created and the stored state is intact. -/
theorem update_delete_absent (db : GitDB) (f k : String) (v : Json)
    (h : Doc.hasKey (load_file db f none) k = false) :
    update_record db f k v = (false, db) ∧
    delete_record db f k = (false, db) := by
  constructor <;> simp [update_record, delete_record, h]

/-- C5 witness: updating or deleting the missing id "user2" fails and
leaves the repository unchanged. -/
theorem update_delete_absent_witness :
    update_record oneRecordDB "users.json" "user2" (Json.str "Bob") =
      (false, oneRecordDB) ∧
    delete_record oneRecordDB "users.json" "user2" = (false, oneRecordDB) :=
  update_delete_absent oneRecordDB "users.json" "user2" (Json.str "Bob") rfl

/-! ### C6 -/

/-- C6: deleting an id present at the latest snapshot succeeds, and a
subsequent read at the new latest snapshot returns the RecordNotFound
signal.  (The document, being parsed from a JSON object, has pairwise
distinct keys.) -/
theorem delete_then_read (db : GitDB) (f k : String)
    (h1 : Doc.hasKey (load_file db f none) k = true)
    (h2 : Doc.NodupKeys (load_file db f none)) :
    (delete_record db f k).1 = true ∧
    read_record (delete_record db f k).2 f k none = RecordNotFound := by
  have hd : delete_record db f k =
      (true, save_file db f (Doc.del (load_file db f none) k)) := by
    simp [delete_record, h1]
  refine ⟨by rw [hd], ?_⟩
  rw [hd]
  simp [read_record, load_file_save_self, Doc.get_del_self _ _ h2]

/-- C6 witness: deleting "user1" succeeds and it subsequently reads as
not found. -/
theorem delete_then_read_witness :
    (delete_record oneRecordDB "users.json" "user1").1 = true ∧
    read_record (delete_record oneRecordDB "users.json" "user1").2
      "users.json" "user1" none = RecordNotFound :=
  delete_then_read oneRecordDB "users.json" "user1" rfl (by decide)

/-! ### C7 -/

/-- C7: a successful mutating call (create/update/delete) appends
exactly one snapshot to the history; a rejected mutating call returns
the repository untouched (no snapshot); read and list calls always
return the repository untouched and so never mutate state or produce
snapshots. -/
theorem snapshot_discipline (db : GitDB) (o : Op) :
    (Op.mutates o = true →
      ((step db o).1 = OpResult.ok →
        ((step db o).2).history.length = db.history.length + 1) ∧
      ((step db o).1 = OpResult.fail → (step db o).2 = db)) ∧
    (Op.mutates o = false → (step db o).2 = db) := by
  cases o with
  | create f k v =>
      refine ⟨fun _ => ?_, fun hm => by simp [Op.mutates] at hm⟩
      cases h : Doc.hasKey (load_file db f none) k with
      | true =>
          constructor
          · intro hok
            simp [step, create_record, h] at hok
          · intro _
            simp [step, create_record, h]
      | false =>
          constructor
          · intro _
            simp [step, create_record, h, history_save]
          · intro hfail
            simp [step, create_record, h] at hfail
  | update f k v =>
      refine ⟨fun _ => ?_, fun hm => by simp [Op.mutates] at hm⟩
      cases h : Doc.hasKey (load_file db f none) k with
      | true =>
          constructor
          · intro _
            simp [step, update_record, h, history_save]
          · intro hfail
            simp [step, update_record, h] at hfail
      | false =>
          constructor
          · intro hok
            simp [step, update_record, h] at hok
          · intro _
            simp [step, update_record, h]
  | delete f k =>
      refine ⟨fun _ => ?_, fun hm => by simp [Op.mutates] at hm⟩
      cases h : Doc.hasKey (load_file db f none) k with
      | true =>
          constructor
          · intro _
            simp [step, delete_record, h, history_save]
          · intro hfail
            simp [step, delete_record, h] at hfail
      | false =>
          constructor
          · intro hok
            simp [step, delete_record, h] at hok
          · intro _
            simp [step, delete_record, h]
  | read f k c =>
      exact ⟨fun hm => by simp [Op.mutates] at hm, fun _ => rfl⟩
  | list f c =>
      exact ⟨fun hm => by simp [Op.mutates] at hm, fun _ => rfl⟩

/-- C7 witness: a successful create appends exactly one snapshot, and a
read leaves the repository untouched. -/
theorem snapshot_discipline_witness :
    ((step emptyDB (Op.create "users.json" "user1" (Json.str "Alice"))).2).history.length =
      emptyDB.history.length + 1 ∧
    (step emptyDB (Op.read "users.json" "user1" none)).2 = emptyDB :=
  ⟨((snapshot_discipline emptyDB
        (Op.create "users.json" "user1" (Json.str "Alice"))).1 rfl).1 rfl,
    (snapshot_discipline emptyDB (Op.read "users.json" "user1" none)).2 rfl⟩

/-! ### C8 -/

theorem applyOp_history (db : GitDB) (o : Op) :
    ∃ ext, (applyOp db o).history = db.history ++ ext := by
  cases o with
  | create f k v =>
      cases h : Doc.hasKey (load_file db f none) k with
      | true => exact ⟨[], by simp [applyOp, step, create_record, h]⟩
      | false =>
          refine ⟨[Tree.set ((GitDB.headTree db).getD []) f
            (FileContent.json (Doc.set (load_file db f none) k v))], ?_⟩
          simp [applyOp, step, create_record, h, save_file]
  | update f k v =>
      cases h : Doc.hasKey (load_file db f none) k with
      | false => exact ⟨[], by simp [applyOp, step, update_record, h]⟩
      | true =>
          refine ⟨[Tree.set ((GitDB.headTree db).getD []) f
            (FileContent.json (Doc.set (load_file db f none) k v))], ?_⟩
          simp [applyOp, step, update_record, h, save_file]
  | delete f k =>
      cases h : Doc.hasKey (load_file db f none) k with
      | false => exact ⟨[], by simp [applyOp, step, delete_record, h]⟩
      | true =>
          refine ⟨[Tree.set ((GitDB.headTree db).getD []) f
            (FileContent.json (Doc.del (load_file db f none) k))], ?_⟩
          simp [applyOp, step, delete_record, h, save_file]
  | read f k c => exact ⟨[], by simp [applyOp, step]⟩
  | list f c => exact ⟨[], by simp [applyOp, step]⟩

theorem applyOps_history_prefix (db : GitDB) (ops : List Op) :
    ∃ ext, (applyOps db ops).history = db.history ++ ext := by
  induction ops generalizing db with
  | nil => exact ⟨[], by simp [applyOps]⟩
  | cons o rest ih =>
      obtain ⟨e2, h2⟩ := ih (applyOp db o)
      obtain ⟨e1, h1⟩ := applyOp_history db o
      refine ⟨e1 ++ e2, ?_⟩
      have hs : applyOps db (o :: rest) = applyOps (applyOp db o) rest := rfl
      rw [hs, h2, h1, List.append_assoc]

theorem treeAt_applyOps (db : GitDB) (ops : List Op) (n : Nat)
    (h : n < db.history.length) :
    GitDB.treeAt (applyOps db ops) n = GitDB.treeAt db n := by
  obtain ⟨ext, he⟩ := applyOps_history_prefix db ops
  simp [GitDB.treeAt, he, List.getElem?_append_left h]

/-- C8: for a snapshot index inside the recorded history, reading or
listing a document at that snapshot after any sequence of subsequent
calls returns the same result as before them: recorded history is
immutable. -/
theorem history_immutable (db : GitDB) (ops : List Op) (n : Nat) (f k : String)
    (h : n < db.history.length) :
    read_record (applyOps db ops) f k (some n) = read_record db f k (some n) ∧
    list_records (applyOps db ops) f (some n) = list_records db f (some n) := by
  have ht := treeAt_applyOps db ops n h
  constructor
  · simp [read_record, load_file, GitDB.resolve, ht]
  · simp [list_records, load_file, GitDB.resolve, ht]

/-- C8 witness: after deleting "user1", reading it at the first
snapshot still gives the old answer, and listing is also unchanged. -/
theorem history_immutable_witness :
    0 < oneRecordDB.history.length ∧
    read_record (applyOps oneRecordDB [Op.delete "users.json" "user1"])
        "users.json" "user1" (some 0) =
      read_record oneRecordDB "users.json" "user1" (some 0) ∧
    list_records (applyOps oneRecordDB [Op.delete "users.json" "user1"])
        "users.json" (some 0) =
      list_records oneRecordDB "users.json" (some 0) :=
  ⟨by decide,
    history_immutable oneRecordDB [Op.delete "users.json" "user1"] 0
      "users.json" "user1" (by decide)⟩

/-! ### C10 -/

/-- C10: after a successful mutating call targeting record (f, k), every
record id of f other than k is mapped to the same value (present with
the same stored value, or absent) in f's document at the new latest
snapshot as at the previous latest snapshot, and the documents of all
other files are unchanged at the latest snapshot. -/
theorem mutation_frame (db : GitDB) (o : Op) (f k : String)
    (h1 : Op.target o = some (f, k))
    (h2 : (step db o).1 = OpResult.ok) :
    (∀ k2, k2 ≠ k →
      Doc.get (load_file (applyOp db o) f none) k2 =
        Doc.get (load_file db f none) k2) ∧
    (∀ f2, f2 ≠ f →
      load_file (applyOp db o) f2 none = load_file db f2 none) := by
  cases o with
  | read _ _ _ => simp [Op.target] at h1
  | list _ _ => simp [Op.target] at h1
  | create f0 k0 v =>
      obtain ⟨hf, hk⟩ : f0 = f ∧ k0 = k := by simpa [Op.target] using h1
      subst hf
      subst hk
      cases h : Doc.hasKey (load_file db f0 none) k0 with
      | true => simp [step, create_record, h] at h2
      | false =>
          have ha : applyOp db (Op.create f0 k0 v) =
              save_file db f0 (Doc.set (load_file db f0 none) k0 v) := by
            simp [applyOp, step, create_record, h]
          constructor
          · intro k2 hne
            rw [ha]
            simp [load_file_save_self, Doc.get_set_ne _ _ _ _ hne]
          · intro f2 hne
            rw [ha, load_file_save_ne _ _ _ _ hne]
  | update f0 k0 v =>
      obtain ⟨hf, hk⟩ : f0 = f ∧ k0 = k := by simpa [Op.target] using h1
      subst hf
      subst hk
      cases h : Doc.hasKey (load_file db f0 none) k0 with
      | false => simp [step, update_record, h] at h2
      | true =>
          have ha : applyOp db (Op.update f0 k0 v) =
              save_file db f0 (Doc.set (load_file db f0 none) k0 v) := by
            simp [applyOp, step, update_record, h]
          constructor
          · intro k2 hne
            rw [ha]
            simp [load_file_save_self, Doc.get_set_ne _ _ _ _ hne]
          · intro f2 hne
            rw [ha, load_file_save_ne _ _ _ _ hne]
  | delete f0 k0 =>
      obtain ⟨hf, hk⟩ : f0 = f ∧ k0 = k := by simpa [Op.target] using h1
      subst hf
      subst hk
      cases h : Doc.hasKey (load_file db f0 none) k0 with
      | false => simp [step, delete_record, h] at h2
      | true =>
          have ha : applyOp db (Op.delete f0 k0) =
              save_file db f0 (Doc.del (load_file db f0 none) k0) := by
            simp [applyOp, step, delete_record, h]
          constructor
          · intro k2 hne
            rw [ha]
            simp [load_file_save_self, Doc.get_del_ne _ _ _ hne]
          · intro f2 hne
            rw [ha, load_file_save_ne _ _ _ _ hne]

/-- C10 witness: creating "user2" next to the existing "user1" maps
"user1" to the same stored value in the new latest snapshot as in the
previous one, and leaves the document of another file unchanged. -/
theorem mutation_frame_witness :
    Doc.get (load_file (applyOp oneRecordDB (Op.create "users.json" "user2" (Json.num 25)))
        "users.json" none) "user1" =
      Doc.get (load_file oneRecordDB "users.json" none) "user1" ∧
    load_file (applyOp oneRecordDB (Op.create "users.json" "user2" (Json.num 25)))
        "posts.json" none =
      load_file oneRecordDB "posts.json" none :=
  ⟨(mutation_frame oneRecordDB (Op.create "users.json" "user2" (Json.num 25))
      "users.json" "user2" rfl rfl).1 "user1" (by decide),
   (mutation_frame oneRecordDB (Op.create "users.json" "user2" (Json.num 25))
      "users.json" "user2" rfl rfl).2 "posts.json" (by decide)⟩

/-! ### C2 (corrected: the not-found signal is Python None, which is
exactly JSON null, so a record stored as JSON null is indistinguishable
from an absent record) -/

/-- C2 counterexample: "user1" is present in the document with stored
value JSON null, yet read returns exactly the RecordNotFound signal —
the signal is not distinguishable from every storable record value. -/
theorem read_null_counterexample :
    Doc.hasKey (load_file nullRecordDB "users.json" none) "user1" = true ∧
    read_record nullRecordDB "users.json" "user1" none = RecordNotFound :=
  ⟨rfl, rfl⟩

/-- C2 amended: read returns the RecordNotFound signal (Python None,
i.e. JSON null) for an id absent from the document, without raising; a
present id reads back its stored value, and that value is
distinguishable from the signal whenever it is not itself JSON null.  A
record stored as JSON null reads back as the signal itself. -/
theorem read_record_not_found_spec (db : GitDB) (f k : String) (c : Option Nat) :
    (Doc.get (load_file db f c) k = none → read_record db f k c = RecordNotFound) ∧
    (∀ v, Doc.get (load_file db f c) k = some v → read_record db f k c = v) ∧
    (∀ v, Doc.get (load_file db f c) k = some v → v ≠ Json.null →
      read_record db f k c ≠ RecordNotFound) := by
  refine ⟨fun h => by simp [read_record, h], fun v h => by simp [read_record, h],
    fun v h hv => ?_⟩
  have hr : read_record db f k c = v := by simp [read_record, h]
  rw [hr]
  exact hv

/-- C2 amended witness: a missing id reads as the signal; a stored
non-null value reads back and differs from the signal. -/
theorem read_record_not_found_spec_witness :
    read_record oneRecordDB "users.json" "user2" none = RecordNotFound ∧
    read_record oneRecordDB "users.json" "user1" none = Json.str "Alice" ∧
    read_record oneRecordDB "users.json" "user1" none ≠ RecordNotFound :=
  ⟨(read_record_not_found_spec oneRecordDB "users.json" "user2" none).1 rfl,
   (read_record_not_found_spec oneRecordDB "users.json" "user1" none).2.1
     (Json.str "Alice") rfl,
   (read_record_not_found_spec oneRecordDB "users.json" "user1" none).2.2
     (Json.str "Alice") rfl (fun hc => Json.noConfusion hc)⟩

/-! ### C3 (corrected: the catch-all except branch turns invalid JSON
into an empty document after printing, so no error reaches the caller) -/

/-- C3 counterexample: at the latest snapshot the file's content is not
valid JSON, yet loading yields the empty document — a read returns the
not-found signal, and a create even succeeds as on an empty document.
No error value is surfaced anywhere. -/
theorem invalid_json_counterexample :
    Tree.get ((GitDB.headTree invalidContentDB).getD []) "users.json" =
      some FileContent.invalid ∧
    load_file invalidContentDB "users.json" none = [] ∧
    read_record invalidContentDB "users.json" "user1" none = RecordNotFound ∧
    (create_record invalidContentDB "users.json" "user1" (Json.str "Alice")).1 = true :=
  ⟨rfl, rfl, rfl, rfl⟩

/-- C3 amended: whenever the file's content at the requested snapshot
(the default latest one or any explicitly requested one) is not valid
JSON, loading treats the document as empty — identically to a missing
file — after printing a diagnostic: loads yield the empty document,
reads return the not-found signal and lists return no ids; no
SerializationError reaches the caller. -/
theorem invalid_json_read_as_empty (db : GitDB) (t : Tree) (f k : String)
    (c : Option Nat)
    (h1 : GitDB.resolve db c = some t)
    (h2 : Tree.get t f = some FileContent.invalid) :
    load_file db f c = [] ∧
    read_record db f k c = RecordNotFound ∧
    list_records db f c = [] := by
  have hl : load_file db f c = [] := by
    simp [load_file, h1, loadTree, h2]
  exact ⟨hl, by simp [read_record, hl, Doc.get],
    by simp [list_records, hl, Doc.keys]⟩

/-- C3 amended witness at the repository whose file content is invalid
JSON, both at the default latest snapshot and at the explicit snapshot
index 0. -/
theorem invalid_json_read_as_empty_witness :
    (load_file invalidContentDB "users.json" none = [] ∧
      read_record invalidContentDB "users.json" "user1" none = RecordNotFound ∧
      list_records invalidContentDB "users.json" none = []) ∧
    (load_file invalidContentDB "users.json" (some 0) = [] ∧
      read_record invalidContentDB "users.json" "user1" (some 0) = RecordNotFound ∧
      list_records invalidContentDB "users.json" (some 0) = []) :=
  ⟨invalid_json_read_as_empty invalidContentDB
      [("users.json", FileContent.invalid)] "users.json" "user1" none rfl rfl,
    invalid_json_read_as_empty invalidContentDB
      [("users.json", FileContent.invalid)] "users.json" "user1" (some 0) rfl rfl⟩

/-! ### C9 (corrected: a record stored as JSON null is listed but reads
back as the not-found signal, so the listed ids do not match the ids
for which read returns a distinguishable stored value) -/

/-- C9 counterexample: with a record stored as JSON null, list returns
its id, but read of that id returns the RecordNotFound signal. -/
theorem list_read_mismatch_counterexample :
    list_records nullRecordDB "users.json" none = ["user1"] ∧
    read_record nullRecordDB "users.json" "user1" none = RecordNotFound :=
  ⟨rfl, rfl⟩

/-- C9 amended: list returns exactly the record ids of the document at
the requested snapshot, in document order; an id is listed iff the
document has an entry for it; an unlisted id reads as RecordNotFound;
and a listed id reads back its stored value — which coincides with the
RecordNotFound signal when that value is JSON null. -/
theorem list_records_spec (db : GitDB) (f : String) (c : Option Nat) :
    list_records db f c = Doc.keys (load_file db f c) ∧
    (∀ k, k ∈ list_records db f c ↔ Doc.hasKey (load_file db f c) k = true) ∧
    (∀ k, Doc.hasKey (load_file db f c) k = false →
      read_record db f k c = RecordNotFound) ∧
    (∀ k v, Doc.get (load_file db f c) k = some v → read_record db f k c = v) := by
  refine ⟨rfl, fun k => ?_, fun k h => ?_, fun k v h => by simp [read_record, h]⟩
  · rw [list_records]
    exact Iff.symm (Doc.get_isSome_iff (load_file db f c) k)
  · cases hg : Doc.get (load_file db f c) k with
    | none => simp [read_record, hg]
    | some v =>
        rw [Doc.hasKey, hg] at h
        simp at h

/-- C9 amended witness: "user1" is listed and reads back its value;
"user2" is not listed and reads as not found. -/
theorem list_records_spec_witness :
    ("user1" ∈ list_records oneRecordDB "users.json" none) ∧
    read_record oneRecordDB "users.json" "user1" none = Json.str "Alice" ∧
    read_record oneRecordDB "users.json" "user2" none = RecordNotFound :=
  ⟨((list_records_spec oneRecordDB "users.json" none).2.1 "user1").mpr rfl,
   (list_records_spec oneRecordDB "users.json" none).2.2.2 "user1"
     (Json.str "Alice") rfl,
   (list_records_spec oneRecordDB "users.json" none).2.2.1 "user2" rfl⟩

end GitAsDatabase
